import Mathlib

/-!
# Verification of the zzterm terminal input decoder

Shallow embedding of the zzterm package (key.go, esc.go, input.go) in Lean 4.

Conventions of the embedding:
* Go byte strings are `List Nat` with every element a byte value.
* Go `uint32` / `byte` / `uint16` values are `Nat` with explicit `% 2^w`
  where truncation matters; Go `rune` (`int32`) is `Int`.
* A bitwise and with a mask `2^k - 1` is written `% 2^k` (equal on all
  naturals); disjoint bitwise ors are written as sums where the operand
  ranges make the bits disjoint (noted at each definition).
* The `map[string]Key` escape table is an association list
  `List (List Nat × Nat)`; lookup is `List.lookup`.
* The byte source (`io.Reader`) is a queue of read results: each call to
  `Read` pops one `(bytes, error)` pair; an exhausted queue keeps
  reporting end-of-stream, like a drained `strings.Reader`.
-/

namespace Zzterm

/-! ## Key model (key.go) -/

/-- Key type constants (key.go `KeyType` enumeration, an iota starting at
`KeyNUL = 0`; the control codes 0–31 coincide with ASCII). -/
def KeyNUL : Nat := 0
def KeyUS : Nat := 31
def KeyESC : Nat := 27
def KeyRune : Nat := 32
def KeyLeft : Nat := 33
def KeyRight : Nat := 34
def KeyUp : Nat := 35
def KeyDown : Nat := 36
def KeyInsert : Nat := 37
def KeyBacktab : Nat := 38
def KeyDelete : Nat := 39
def KeyHome : Nat := 40
def KeyEnd : Nat := 41
def KeyPgUp : Nat := 42
def KeyPgDn : Nat := 43

/-- Function keys: `KeyF1 = 44` through `KeyF64 = 107` (key.go iota). -/
def KeyF (n : Nat) : Nat := 43 + n

def KeyHelp : Nat := 108
def KeyExit : Nat := 109
def KeyClear : Nat := 110
def KeyCancel : Nat := 111
def KeyPrint : Nat := 112
def KeyESCSeq : Nat := 113
def KeyMouse : Nat := 114
def KeyFocusIn : Nat := 115
def KeyFocusOut : Nat := 116
def KeyDEL : Nat := 127

/-- Modifier flags (key.go): `_ = 1`, `ModAlt = 2`, `ModShift = 4`,
`ModMeta = 8`, `ModCtrl = 16`, `ModNone = 0`. -/
def ModAlt : Nat := 2
def ModShift : Nat := 4
def ModMeta : Nat := 8
def ModCtrl : Nat := 16
def ModNone : Nat := 0

/-- key.go: `modMouseEvent = ModShift | ModMeta | ModCtrl` = 4 | 8 | 16 = 28. -/
def modMouseEvent : Nat := 28

/-- key.go `keyFromTypeMod`: `k := Key(m) << 8; k |= Key(t); k |= 1 << 31`.
`t` (a Go `KeyType`) and `m` (a Go `Mod`) are bytes, so the three or-ed
operands occupy disjoint bit ranges: the result is
`2^31 + (m mod 2^8) * 2^8 + (t mod 2^8)`. -/
def keyFromTypeMod (t m : Nat) : Nat :=
  2147483648 + (m % 256) * 256 + (t % 256)

/-- Go `rune(k)` for `k : uint32`: reinterpret the 32-bit pattern as a
signed `int32`. -/
def runeOfKey (k : Nat) : Int :=
  if k < 2147483648 then (k : Int) else (k : Int) - 4294967296

/-- key.go `Key.Rune`: `r := rune(k); if r < 0 { return -1 }; return rune(k)`. -/
def Key.Rune (k : Nat) : Int :=
  if runeOfKey k < 0 then -1 else runeOfKey k

/-- key.go `Key.Type`: `if r := rune(k); r >= 0 { return KeyRune };
return KeyType(k & 0xFF)`  (`k & 0xFF = k mod 2^8`). -/
def Key.Type (k : Nat) : Nat :=
  if 0 ≤ runeOfKey k then KeyRune else k % 256

/-- key.go `Key.Mod`: `if r := rune(k); r >= 0 { return ModNone };
return Mod((k >> 8) & 0xFF)`. -/
def Key.Mod (k : Nat) : Nat :=
  if 0 ≤ runeOfKey k then ModNone else (k / 256) % 256

/-- key.go `MouseEvent`: button id (byte), pressed flag, and the two
`uint16` coordinates. -/
structure MouseEvent where
  buttonID : Nat
  pressed : Bool
  x : Nat
  y : Nat
deriving DecidableEq, Repr

/-- key.go `MouseEvent.ButtonID`. -/
def MouseEvent.ButtonID (m : MouseEvent) : Nat := m.buttonID

/-- key.go `MouseEvent.ButtonPressed`. -/
def MouseEvent.ButtonPressed (m : MouseEvent) : Bool := m.pressed

/-- key.go `MouseEvent.Coords`: returns the `(x, y)` screen coordinates. -/
def MouseEvent.Coords (m : MouseEvent) : Nat × Nat := (m.x, m.y)

/-! ## UTF-8 decoding (Go `unicode/utf8.DecodeRune`, called by input.go)

Faithful to the Go standard library implementation: the first byte is
classified by the `first` table (ASCII, invalid, or a 2/3/4-byte leader
with an accept range for the second byte); a sequence shorter than the
size demanded by its leader, or with an out-of-range continuation byte,
yields `(RuneError, 1)`; an empty input yields `(RuneError, 0)`.
Masks `& 0x1F`, `& 0x0F`, `& 0x07`, `& 0x3F` are written
`% 32`, `% 16`, `% 8`, `% 64`. `RuneError = 0xFFFD = 65533`. -/

def RuneError : Int := 65533

def utf8DecodeRune (p : List Nat) : Int × Nat :=
  match p with
  | [] => (RuneError, 0)
  | b0 :: t =>
    if b0 < 128 then (Int.ofNat b0, 1)
    else if b0 < 194 then (RuneError, 1)       -- 0x80–0xC1: invalid leader
    else if b0 < 224 then                      -- 0xC2–0xDF: 2-byte sequence
      match t with
      | [] => (RuneError, 1)
      | b1 :: _ =>
        if 128 ≤ b1 ∧ b1 ≤ 191 then
          (Int.ofNat ((b0 % 32) * 64 + b1 % 64), 2)
        else (RuneError, 1)
    else if b0 < 240 then                      -- 0xE0–0xEF: 3-byte sequence
      let lo := if b0 = 224 then 160 else 128
      let hi := if b0 = 237 then 159 else 191
      match t with
      | b1 :: b2 :: _ =>
        if lo ≤ b1 ∧ b1 ≤ hi then
          if 128 ≤ b2 ∧ b2 ≤ 191 then
            (Int.ofNat ((b0 % 16) * 4096 + (b1 % 64) * 64 + b2 % 64), 3)
          else (RuneError, 1)
        else (RuneError, 1)
      | _ => (RuneError, 1)
    else if b0 < 245 then                      -- 0xF0–0xF4: 4-byte sequence
      let lo := if b0 = 240 then 144 else 128
      let hi := if b0 = 244 then 143 else 191
      match t with
      | b1 :: b2 :: b3 :: _ =>
        if lo ≤ b1 ∧ b1 ≤ hi then
          if 128 ≤ b2 ∧ b2 ≤ 191 then
            if 128 ≤ b3 ∧ b3 ≤ 191 then
              (Int.ofNat ((b0 % 8) * 262144 + (b1 % 64) * 4096
                + (b2 % 64) * 64 + b3 % 64), 4)
            else (RuneError, 1)
          else (RuneError, 1)
        else (RuneError, 1)
      | _ => (RuneError, 1)
    else (RuneError, 1)                        -- 0xF5–0xFF: invalid leader

/-- The standard UTF-8 encoding of a Unicode scalar value (the
specification-side inverse of `utf8DecodeRune`, used to quantify over
"every multi-byte UTF-8 encoding of a scalar value"). -/
def utf8EncodeRune (v : Nat) : List Nat :=
  if v < 128 then [v]
  else if v < 2048 then [192 + v / 64, 128 + v % 64]
  else if v < 65536 then
    [224 + v / 4096, 128 + (v / 64) % 64, 128 + v % 64]
  else
    [240 + v / 262144, 128 + (v / 4096) % 64, 128 + (v / 64) % 64,
     128 + v % 64]

/-! ## Escape-sequence table (esc.go) -/

/-- esc.go `defaultEsc`: the built-in escape-sequence table, with the raw
byte sequences spelled out ("\x1b[A" = [27, 91, 65], etc.). -/
def defaultEsc : List (List Nat × Nat) :=
  [([27, 91, 65], keyFromTypeMod KeyUp ModNone),
   ([27, 91, 66], keyFromTypeMod KeyDown ModNone),
   ([27, 91, 67], keyFromTypeMod KeyRight ModNone),
   ([27, 91, 68], keyFromTypeMod KeyLeft ModNone),
   ([27, 91, 50, 126], keyFromTypeMod KeyInsert ModNone),
   ([27, 91, 51, 126], keyFromTypeMod KeyDelete ModNone),
   ([27, 91, 90], keyFromTypeMod KeyBacktab ModNone),
   ([27, 79, 72], keyFromTypeMod KeyHome ModNone),
   ([27, 79, 70], keyFromTypeMod KeyEnd ModNone),
   ([27, 91, 53, 126], keyFromTypeMod KeyPgUp ModNone),
   ([27, 91, 54, 126], keyFromTypeMod KeyPgDn ModNone),
   ([27, 79, 80], keyFromTypeMod (KeyF 1) ModNone),
   ([27, 79, 81], keyFromTypeMod (KeyF 2) ModNone),
   ([27, 79, 82], keyFromTypeMod (KeyF 3) ModNone),
   ([27, 79, 83], keyFromTypeMod (KeyF 4) ModNone),
   ([27, 91, 49, 53, 126], keyFromTypeMod (KeyF 5) ModNone),
   ([27, 91, 49, 55, 126], keyFromTypeMod (KeyF 6) ModNone),
   ([27, 91, 49, 56, 126], keyFromTypeMod (KeyF 7) ModNone),
   ([27, 91, 49, 57, 126], keyFromTypeMod (KeyF 8) ModNone),
   ([27, 91, 50, 48, 126], keyFromTypeMod (KeyF 9) ModNone),
   ([27, 91, 50, 49, 126], keyFromTypeMod (KeyF 10) ModNone),
   ([27, 91, 50, 51, 126], keyFromTypeMod (KeyF 11) ModNone),
   ([27, 91, 50, 52, 126], keyFromTypeMod (KeyF 12) ModNone),
   ([27, 91, 49, 59, 50, 80], keyFromTypeMod (KeyF 13) ModNone),
   ([27, 91, 49, 59, 50, 81], keyFromTypeMod (KeyF 14) ModNone),
   ([27, 91, 49, 59, 50, 82], keyFromTypeMod (KeyF 15) ModNone),
   ([27, 91, 49, 59, 50, 83], keyFromTypeMod (KeyF 16) ModNone),
   ([27, 91, 49, 53, 59, 50, 126], keyFromTypeMod (KeyF 17) ModNone),
   ([27, 91, 49, 55, 59, 50, 126], keyFromTypeMod (KeyF 18) ModNone),
   ([27, 91, 49, 56, 59, 50, 126], keyFromTypeMod (KeyF 19) ModNone),
   ([27, 91, 49, 57, 59, 50, 126], keyFromTypeMod (KeyF 20) ModNone),
   ([27, 91, 49, 59, 50, 68], keyFromTypeMod KeyLeft ModShift),
   ([27, 91, 49, 59, 50, 67], keyFromTypeMod KeyRight ModShift)]

/-- esc.go `escFromTerminfo`, the `switch k` over recognized capability
names, rendered as a name-to-key table (each `case "X": m[v] = K` becomes
the entry `("X", K)`). -/
def escCaseTable : List (String × Nat) :=
  [("KeyBackspace", keyFromTypeMod 8 ModNone),
   ("KeyF1", keyFromTypeMod (KeyF 1) ModNone),
   ("KeyF2", keyFromTypeMod (KeyF 2) ModNone),
   ("KeyF3", keyFromTypeMod (KeyF 3) ModNone),
   ("KeyF4", keyFromTypeMod (KeyF 4) ModNone),
   ("KeyF5", keyFromTypeMod (KeyF 5) ModNone),
   ("KeyF6", keyFromTypeMod (KeyF 6) ModNone),
   ("KeyF7", keyFromTypeMod (KeyF 7) ModNone),
   ("KeyF8", keyFromTypeMod (KeyF 8) ModNone),
   ("KeyF9", keyFromTypeMod (KeyF 9) ModNone),
   ("KeyF10", keyFromTypeMod (KeyF 10) ModNone),
   ("KeyF11", keyFromTypeMod (KeyF 11) ModNone),
   ("KeyF12", keyFromTypeMod (KeyF 12) ModNone),
   ("KeyF13", keyFromTypeMod (KeyF 13) ModNone),
   ("KeyF14", keyFromTypeMod (KeyF 14) ModNone),
   ("KeyF15", keyFromTypeMod (KeyF 15) ModNone),
   ("KeyF16", keyFromTypeMod (KeyF 16) ModNone),
   ("KeyF17", keyFromTypeMod (KeyF 17) ModNone),
   ("KeyF18", keyFromTypeMod (KeyF 18) ModNone),
   ("KeyF19", keyFromTypeMod (KeyF 19) ModNone),
   ("KeyF20", keyFromTypeMod (KeyF 20) ModNone),
   ("KeyF21", keyFromTypeMod (KeyF 21) ModNone),
   ("KeyF22", keyFromTypeMod (KeyF 22) ModNone),
   ("KeyF23", keyFromTypeMod (KeyF 23) ModNone),
   ("KeyF24", keyFromTypeMod (KeyF 24) ModNone),
   ("KeyF25", keyFromTypeMod (KeyF 25) ModNone),
   ("KeyF26", keyFromTypeMod (KeyF 26) ModNone),
   ("KeyF27", keyFromTypeMod (KeyF 27) ModNone),
   ("KeyF28", keyFromTypeMod (KeyF 28) ModNone),
   ("KeyF29", keyFromTypeMod (KeyF 29) ModNone),
   ("KeyF30", keyFromTypeMod (KeyF 30) ModNone),
   ("KeyF31", keyFromTypeMod (KeyF 31) ModNone),
   ("KeyF32", keyFromTypeMod (KeyF 32) ModNone),
   ("KeyF33", keyFromTypeMod (KeyF 33) ModNone),
   ("KeyF34", keyFromTypeMod (KeyF 34) ModNone),
   ("KeyF35", keyFromTypeMod (KeyF 35) ModNone),
   ("KeyF36", keyFromTypeMod (KeyF 36) ModNone),
   ("KeyF37", keyFromTypeMod (KeyF 37) ModNone),
   ("KeyF38", keyFromTypeMod (KeyF 38) ModNone),
   ("KeyF39", keyFromTypeMod (KeyF 39) ModNone),
   ("KeyF40", keyFromTypeMod (KeyF 40) ModNone),
   ("KeyF41", keyFromTypeMod (KeyF 41) ModNone),
   ("KeyF42", keyFromTypeMod (KeyF 42) ModNone),
   ("KeyF43", keyFromTypeMod (KeyF 43) ModNone),
   ("KeyF44", keyFromTypeMod (KeyF 44) ModNone),
   ("KeyF45", keyFromTypeMod (KeyF 45) ModNone),
   ("KeyF46", keyFromTypeMod (KeyF 46) ModNone),
   ("KeyF47", keyFromTypeMod (KeyF 47) ModNone),
   ("KeyF48", keyFromTypeMod (KeyF 48) ModNone),
   ("KeyF49", keyFromTypeMod (KeyF 49) ModNone),
   ("KeyF50", keyFromTypeMod (KeyF 50) ModNone),
   ("KeyF51", keyFromTypeMod (KeyF 51) ModNone),
   ("KeyF52", keyFromTypeMod (KeyF 52) ModNone),
   ("KeyF53", keyFromTypeMod (KeyF 53) ModNone),
   ("KeyF54", keyFromTypeMod (KeyF 54) ModNone),
   ("KeyF55", keyFromTypeMod (KeyF 55) ModNone),
   ("KeyF56", keyFromTypeMod (KeyF 56) ModNone),
   ("KeyF57", keyFromTypeMod (KeyF 57) ModNone),
   ("KeyF58", keyFromTypeMod (KeyF 58) ModNone),
   ("KeyF59", keyFromTypeMod (KeyF 59) ModNone),
   ("KeyF60", keyFromTypeMod (KeyF 60) ModNone),
   ("KeyF61", keyFromTypeMod (KeyF 61) ModNone),
   ("KeyF62", keyFromTypeMod (KeyF 62) ModNone),
   ("KeyF63", keyFromTypeMod (KeyF 63) ModNone),
   ("KeyF64", keyFromTypeMod (KeyF 64) ModNone),
   ("KeyInsert", keyFromTypeMod KeyInsert ModNone),
   ("KeyDelete", keyFromTypeMod KeyDelete ModNone),
   ("KeyHome", keyFromTypeMod KeyHome ModNone),
   ("KeyEnd", keyFromTypeMod KeyEnd ModNone),
   ("KeyHelp", keyFromTypeMod KeyHelp ModNone),
   ("KeyPgUp", keyFromTypeMod KeyPgUp ModNone),
   ("KeyPgDn", keyFromTypeMod KeyPgDn ModNone),
   ("KeyUp", keyFromTypeMod KeyUp ModNone),
   ("KeyDown", keyFromTypeMod KeyDown ModNone),
   ("KeyLeft", keyFromTypeMod KeyLeft ModNone),
   ("KeyRight", keyFromTypeMod KeyRight ModNone),
   ("KeyBacktab", keyFromTypeMod KeyBacktab ModNone),
   ("KeyExit", keyFromTypeMod KeyExit ModNone),
   ("KeyClear", keyFromTypeMod KeyClear ModNone),
   ("KeyPrint", keyFromTypeMod KeyPrint ModNone),
   ("KeyCancel", keyFromTypeMod KeyCancel ModNone),
   ("KeyShfRight", keyFromTypeMod KeyRight ModShift),
   ("KeyShfLeft", keyFromTypeMod KeyLeft ModShift),
   ("KeyShfHome", keyFromTypeMod KeyHome ModShift),
   ("KeyShfEnd", keyFromTypeMod KeyEnd ModShift),
   ("KeyShfUp", keyFromTypeMod KeyUp ModShift),
   ("KeyShfDown", keyFromTypeMod KeyDown ModShift),
   ("KeyShfPgUp", keyFromTypeMod KeyPgUp ModShift),
   ("KeyShfPgDn", keyFromTypeMod KeyPgDn ModShift),
   ("KeyCtrlUp", keyFromTypeMod KeyUp ModCtrl),
   ("KeyCtrlDown", keyFromTypeMod KeyDown ModCtrl),
   ("KeyCtrlRight", keyFromTypeMod KeyRight ModCtrl),
   ("KeyCtrlLeft", keyFromTypeMod KeyLeft ModCtrl),
   ("KeyMetaUp", keyFromTypeMod KeyUp ModMeta),
   ("KeyMetaDown", keyFromTypeMod KeyDown ModMeta),
   ("KeyMetaRight", keyFromTypeMod KeyRight ModMeta),
   ("KeyMetaLeft", keyFromTypeMod KeyLeft ModMeta),
   ("KeyAltUp", keyFromTypeMod KeyUp ModAlt),
   ("KeyAltDown", keyFromTypeMod KeyDown ModAlt),
   ("KeyAltRight", keyFromTypeMod KeyRight ModAlt),
   ("KeyAltLeft", keyFromTypeMod KeyLeft ModAlt),
   ("KeyCtrlHome", keyFromTypeMod KeyHome ModCtrl),
   ("KeyCtrlEnd", keyFromTypeMod KeyEnd ModCtrl),
   ("KeyMetaHome", keyFromTypeMod KeyHome ModMeta),
   ("KeyMetaEnd", keyFromTypeMod KeyEnd ModMeta),
   ("KeyAltHome", keyFromTypeMod KeyHome ModAlt),
   ("KeyAltEnd", keyFromTypeMod KeyEnd ModAlt),
   ("KeyAltShfUp", keyFromTypeMod KeyUp (ModAlt + ModShift)),
   ("KeyAltShfDown", keyFromTypeMod KeyDown (ModAlt + ModShift)),
   ("KeyAltShfLeft", keyFromTypeMod KeyLeft (ModAlt + ModShift)),
   ("KeyAltShfRight", keyFromTypeMod KeyRight (ModAlt + ModShift)),
   ("KeyMetaShfUp", keyFromTypeMod KeyUp (ModMeta + ModShift)),
   ("KeyMetaShfDown", keyFromTypeMod KeyDown (ModMeta + ModShift)),
   ("KeyMetaShfLeft", keyFromTypeMod KeyLeft (ModMeta + ModShift)),
   ("KeyMetaShfRight", keyFromTypeMod KeyRight (ModMeta + ModShift)),
   ("KeyCtrlShfUp", keyFromTypeMod KeyUp (ModCtrl + ModShift)),
   ("KeyCtrlShfDown", keyFromTypeMod KeyDown (ModCtrl + ModShift)),
   ("KeyCtrlShfLeft", keyFromTypeMod KeyLeft (ModCtrl + ModShift)),
   ("KeyCtrlShfRight", keyFromTypeMod KeyRight (ModCtrl + ModShift)),
   ("KeyCtrlShfHome", keyFromTypeMod KeyHome (ModCtrl + ModShift)),
   ("KeyCtrlShfEnd", keyFromTypeMod KeyEnd (ModCtrl + ModShift)),
   ("KeyAltShfHome", keyFromTypeMod KeyHome (ModAlt + ModShift)),
   ("KeyAltShfEnd", keyFromTypeMod KeyEnd (ModAlt + ModShift)),
   ("KeyMetaShfHome", keyFromTypeMod KeyHome (ModMeta + ModShift)),
   ("KeyMetaShfEnd", keyFromTypeMod KeyEnd (ModMeta + ModShift))]

/-- esc.go `escFromTerminfo`: `none` models a nil map (default table is
cloned); `some tinfo` iterates the entries, keeps those whose name starts
with "Key" and whose sequence starts with the escape byte, and translates
recognized names through the case table. -/
def escFromTerminfo : Option (List (String × List Nat)) →
    List (List Nat × Nat)
  | none => defaultEsc
  | some tinfo =>
    tinfo.foldr
      (fun kv acc =>
        if kv.1.startsWith "Key" ∧ kv.2.take 1 = [27] then
          match List.lookup kv.1 escCaseTable with
          | some key => (kv.2, key) :: acc
          | none => acc
        else acc)
      []

/-! ## Errors and the byte source (input.go) -/

/-- Go error values reaching the decoder. `invalidRune` is the
`errors.New("invalid rune")` value created inside `ReadKey`;
`timeoutError s` is the input.go `timeoutError` string type;
`otherErr` is any other reader-supplied I/O error. -/
inductive GoError where
  | eof
  | timeoutError (msg : String)
  | invalidRune
  | otherErr (msg : String)
deriving DecidableEq, Repr

/-- input.go: `func (e timeoutError) Timeout() bool { return true }`. -/
def timeoutErrorTimeout (_msg : String) : Bool := true

/-- The Go type assertion `err.(interface{ Timeout() bool })`: only the
`timeoutError` type implements the interface. -/
def GoError.timeoutMethod : GoError → Option Bool
  | GoError.timeoutError msg => some (timeoutErrorTimeout msg)
  | _ => none

/-- input.go: `ErrTimeout = timeoutError("zzterm: timetout")`. -/
def ErrTimeout : GoError := GoError.timeoutError "zzterm: timetout"

/-- The byte source: a queue of `Read` results. -/
abbrev Src : Type := List (List Nat × Option GoError)

/-- One `Read` call: pop the next result; a drained source reports
end-of-stream (`(nil, io.EOF)`), as a `strings.Reader` does. -/
def srcRead : Src → (List Nat × Option GoError) × Src
  | [] => (([], some GoError.eof), [])
  | c :: rest => (c, rest)

/-- input.go ReadKey's timeout classification of a failed read:
`err == nil || err == io.EOF || (ok && to.Timeout())`. -/
def readErrTimeoutClass : Option GoError → Bool
  | none => true
  | some GoError.eof => true
  | some e => (e.timeoutMethod).getD false

/-! ## The decoder state and ReadKey (input.go) -/

/-- input.go `Input`: `buf` holds the loaded bytes `i.buf[0:i.len]`
(so `i.len` is `buf.length`); `sz` is the size of the last key;
`lastm` the last mouse event; `esc` and `mouse` the construction-time
configuration. -/
structure Input where
  buf : List Nat
  sz : Nat
  lastm : MouseEvent
  esc : List (List Nat × Nat)
  mouse : Bool
deriving DecidableEq, Repr

/-- input.go `Input.Bytes`: `if i.sz <= 0 { return nil };
return i.buf[:i.sz:i.sz]`. -/
def Input.Bytes (i : Input) : List Nat :=
  if i.sz = 0 then [] else i.buf.take i.sz

/-- input.go `Input.Mouse`. -/
def Input.Mouse (i : Input) : MouseEvent := i.lastm

/-- input.go `sgrMouseEventPrefix = "\x1b[<"`. -/
def sgrMouseEventPrefix : List Nat := [27, 91, 60]

/-- input.go `parseUintBytes` digit loop: accumulate base-10 digits,
error on a non-digit, and return 65535 early once the accumulator
exceeds the maximum `uint16` (Go's saturating early return skips any
remaining bytes). -/
def parseUintLoop : List Nat → Nat → Option Nat
  | [], n => some n
  | d :: t, n =>
    if 48 ≤ d ∧ d ≤ 57 then
      let n2 := n * 10 + (d - 48)
      if n2 > 65535 then some 65535 else parseUintLoop t n2
    else none

/-- input.go `parseUintBytes`: empty input is `errInvalidUint`. -/
def parseUintBytes (b : List Nat) : Option Nat :=
  if b.length = 0 then none else parseUintLoop b 0

/-- `bytes.IndexByte(buf, ';')` followed by the split `buf[:ix]` /
`buf[ix+1:]` used by the decodeMouseEvent field loop; `none` models
`ix < 0`. -/
def cutSemi (b : List Nat) : Option (List Nat × List Nat) :=
  match b.findIdx? (fun x => x = 59) with
  | none => none
  | some ix => some (b.take ix, b.drop (ix + 1))

/-- input.go `Input.decodeMouseEvent`, as a pure function of the working
buffer `i.buf[:i.len]` and the stored `lastm`; returns the key and the
(possibly updated) `lastm`. The two-iteration field loop is unrolled.
Bit operations on the first field: `& 0b11` is `% 4`; `& 0b1100_0000`
and `& 0b10_0000` are kept as `&&&`; `Mod(nums[0])` truncates the
`uint16` to a byte (`% 256`) before the `& modMouseEvent` mask. -/
def decodeMouseEvent (bufAll : List Nat) (lastm : MouseEvent) :
    Nat × MouseEvent :=
  let buf := bufAll.drop sgrMouseEventPrefix.length
  if buf.length < 6 then (keyFromTypeMod KeyESCSeq ModNone, lastm)
  else
    let lastb := (buf.getLast?).getD 0
    if lastb = 77 ∨ lastb = 109 then  -- 'M' press / 'm' release
      let pressed := lastb = 77
      let buf1 := buf.dropLast
      match cutSemi buf1 with
      | none => (keyFromTypeMod KeyESCSeq ModNone, lastm)
      | some (f0, r0) =>
        match parseUintBytes f0 with
        | none => (keyFromTypeMod KeyESCSeq ModNone, lastm)
        | some n0 =>
          match cutSemi r0 with
          | none => (keyFromTypeMod KeyESCSeq ModNone, lastm)
          | some (f1, r1) =>
            match parseUintBytes f1 with
            | none => (keyFromTypeMod KeyESCSeq ModNone, lastm)
            | some n1 =>
              match parseUintBytes r1 with
              | none => (keyFromTypeMod KeyESCSeq ModNone, lastm)
              | some n2 =>
                let mod := (n0 % 256) &&& modMouseEvent
                let btn0 := n0 % 4
                let add := (n0 &&& 192) / 16
                let btn1 := btn0 + add
                let btn2 :=
                  if (btn1 = 3 ∧ n0 &&& 32 ≠ 0) ∨ btn1 = 3 then 0
                  else if btn1 < 3 then btn1 + 1
                  else btn1
                (keyFromTypeMod KeyMouse mod,
                 ⟨btn2 % 256, pressed, n1, n2⟩)
    else (keyFromTypeMod KeyESCSeq ModNone, lastm)

/-- The result of one `ReadKey` call: the returned `(Key, error)` pair,
the mutated decoder, and the advanced byte source. -/
structure RKResult where
  key : Nat
  err : Option GoError
  inp : Input
  src : Src
deriving DecidableEq, Repr

/-- Go `KeyType(rn)` for a rune `rn`: conversion to byte keeps the low
8 bits. -/
def keyTypeOfRune (rn : Int) : Nat := ((rn % 256).toNat)

/-- Go `Key(rn)`: conversion of the `int32` rune to `uint32`. -/
def keyOfRune (rn : Int) : Nat := ((rn % 4294967296).toNat)

/-- input.go ReadKey, after a rune `rn` was decoded from the working
buffer and `i.sz` set to its size: the control-character short-circuit
(only when `i.len == 1`), then escape-sequence handling (mouse
sub-decoder, table lookup, generic `KeyESCSeq`), else the rune key. -/
def finishKey (i : Input) (src : Src) (rn : Int) : RKResult :=
  if i.buf.length = 1 ∧ (keyTypeOfRune rn ≤ KeyUS ∨ keyTypeOfRune rn = KeyDEL)
  then
    { key := keyFromTypeMod (keyTypeOfRune rn) ModNone, err := none,
      inp := i, src := src }
  else if keyTypeOfRune rn = KeyESC then
    if i.mouse ∧ i.buf.take 3 = sgrMouseEventPrefix then
      let km := decodeMouseEvent i.buf i.lastm
      if Key.Type km.1 = KeyMouse then
        { key := km.1, err := none,
          inp := { i with sz := i.buf.length, lastm := km.2 }, src := src }
      else
        escLookupStep { i with lastm := km.2 } src
    else
      escLookupStep i src
  else
    { key := keyOfRune rn, err := none, inp := i, src := src }
where
  /-- The escape-table lookup and the generic `KeyESCSeq` fallback
  (both consume the whole buffer: `i.sz = i.len`). -/
  escLookupStep (i : Input) (src : Src) : RKResult :=
    match List.lookup i.buf i.esc with
    | some key =>
      { key := key, err := none, inp := { i with sz := i.buf.length },
        src := src }
    | none =>
      { key := keyFromTypeMod KeyESCSeq ModNone, err := none,
        inp := { i with sz := i.buf.length }, src := src }

/-- input.go ReadKey when no valid rune could be decoded from the loaded
bytes: perform one read; on a failed or empty read return "invalid rune"
(consuming one byte) if bytes are buffered, else `ErrTimeout` for a
timeout-classified condition, else pass the error through; on a
successful read append the bytes and decode again. -/
def readMore (i1 : Input) (src : Src) : RKResult :=
  let c := srcRead src
  let chunk := c.1.1
  let err := c.1.2
  let src1 := c.2
  if err ≠ none ∨ chunk.length = 0 then
    if 0 < i1.buf.length then
      { key := 0, err := some GoError.invalidRune,
        inp := { i1 with sz := 1 }, src := src1 }
    else if chunk.length = 0 ∧ readErrTimeoutClass err then
      { key := 0, err := some ErrTimeout, inp := i1, src := src1 }
    else
      { key := 0, err := err, inp := i1, src := src1 }
  else
    let i2 := { i1 with buf := i1.buf ++ chunk }
    let d := utf8DecodeRune i2.buf
    if d.1 = RuneError ∧ d.2 < 2 then
      { key := 0, err := some GoError.invalidRune,
        inp := { i2 with sz := 1 }, src := src1 }
    else
      finishKey { i2 with sz := d.2 } src1 d.1

/-- input.go `Input.ReadKey`: discard the bytes of the previous key
(compaction), try to decode a rune from the loaded bytes, read more
bytes if that fails, then classify the decoded rune (`finishKey`). -/
def ReadKey (i : Input) (src : Src) : RKResult :=
  let i1 := if 0 < i.sz then { i with buf := i.buf.drop i.sz, sz := 0 } else i
  let d0 := utf8DecodeRune i1.buf
  if 0 < i1.buf.length ∧ ¬(d0.1 = RuneError ∧ d0.2 < 2) then
    finishKey { i1 with sz := d0.2 } src d0.1
  else
    readMore i1 src

/-- A fresh decoder as built by `NewInput` (zero-value mouse state),
with the given escape table and mouse flag. -/
def mkInput (esc : List (List Nat × Nat)) (mouse : Bool) : Input :=
  { buf := [], sz := 0, lastm := ⟨0, false, 0, 0⟩, esc := esc,
    mouse := mouse }

/-! ## Helper lemmas about the key packing -/

theorem keyFromTypeMod_bounds (t m : Nat) :
    2147483648 ≤ keyFromTypeMod t m ∧ keyFromTypeMod t m < 4294967296 := by
  unfold keyFromTypeMod
  have h1 : m % 256 < 256 := Nat.mod_lt _ (by norm_num)
  have h2 : t % 256 < 256 := Nat.mod_lt _ (by norm_num)
  omega

theorem runeOfKey_keyFromTypeMod_neg (t m : Nat) :
    runeOfKey (keyFromTypeMod t m) < 0 := by
  obtain ⟨hlo, hhi⟩ := keyFromTypeMod_bounds t m
  unfold runeOfKey
  rw [if_neg (by omega)]
  omega

theorem keyType_keyFromTypeMod (t m : Nat) (ht : t < 256) :
    Key.Type (keyFromTypeMod t m) = t := by
  have hneg := runeOfKey_keyFromTypeMod_neg t m
  unfold Key.Type
  rw [if_neg (by omega)]
  unfold keyFromTypeMod
  have h1 : m % 256 < 256 := Nat.mod_lt _ (by norm_num)
  omega

theorem keyMod_keyFromTypeMod (t m : Nat) (hm : m < 256) :
    Key.Mod (keyFromTypeMod t m) = m := by
  have hneg := runeOfKey_keyFromTypeMod_neg t m
  unfold Key.Mod
  rw [if_neg (by omega)]
  unfold keyFromTypeMod
  have h2 : t % 256 < 256 := Nat.mod_lt _ (by norm_num)
  omega

theorem keyRune_keyFromTypeMod (t m : Nat) :
    Key.Rune (keyFromTypeMod t m) = -1 := by
  have hneg := runeOfKey_keyFromTypeMod_neg t m
  unfold Key.Rune
  rw [if_pos hneg]

theorem keyType_of_lt (k : Nat) (hk : k < 2147483648) :
    Key.Type k = KeyRune := by
  unfold Key.Type runeOfKey
  rw [if_pos hk, if_pos (by positivity)]

theorem keyMod_of_lt (k : Nat) (hk : k < 2147483648) :
    Key.Mod k = ModNone := by
  unfold Key.Mod runeOfKey
  rw [if_pos hk, if_pos (by positivity)]

/-! ## Claim theorems -/

/-- C9 counterexample: the key built by `keyFromTypeMod KeyRune ModShift`
has `Type() == KeyRune` but a non-`ModNone` modifier, so "for every Key
value k, if k.Type() == KeyRune then k.Mod() == ModNone" is false for the
full Key value space. -/
theorem c9_counterexample :
    Key.Type (keyFromTypeMod KeyRune ModShift) = KeyRune ∧
    ¬ Key.Mod (keyFromTypeMod KeyRune ModShift) = ModNone := by decide

/-- C9 (amended): every rune-encoded Key value (sign bit clear, the form
`Key(rn)` produced for character keys) has `Type() == KeyRune` and
`Mod() == ModNone`; and for every KeyType byte t and modifier byte m,
`keyFromTypeMod t m` satisfies `Type() == t`, `Mod() == m` and
`Rune() == -1`. -/
theorem c9_key_invariants :
    (∀ k : Nat, k < 2147483648 →
      Key.Type k = KeyRune ∧ Key.Mod k = ModNone) ∧
    (∀ t m : Nat, t < 256 → m < 256 →
      Key.Type (keyFromTypeMod t m) = t ∧ Key.Mod (keyFromTypeMod t m) = m ∧
      Key.Rune (keyFromTypeMod t m) = -1) :=
  ⟨fun k hk => ⟨keyType_of_lt k hk, keyMod_of_lt k hk⟩,
   fun t m ht hm =>
     ⟨keyType_keyFromTypeMod t m ht, keyMod_keyFromTypeMod t m hm,
      keyRune_keyFromTypeMod t m⟩⟩

theorem c9_key_invariants_witness :
    Key.Type 97 = KeyRune ∧ Key.Mod 97 = ModNone ∧
    Key.Type (keyFromTypeMod KeyUp ModShift) = KeyUp ∧
    Key.Mod (keyFromTypeMod KeyUp ModShift) = ModShift :=
  ⟨(c9_key_invariants.1 97 (by decide)).1,
   (c9_key_invariants.1 97 (by decide)).2,
   (c9_key_invariants.2 KeyUp ModShift (by decide) (by decide)).1,
   (c9_key_invariants.2 KeyUp ModShift (by decide) (by decide)).2.1⟩

/-- C2: a control byte (0–31 or 127) read in isolation decodes to the
control key of the same numeric type with no modifier, consuming exactly
one byte. -/
theorem c2_control_byte (b : Nat) (hb : b ≤ 31 ∨ b = 127) :
    (ReadKey (mkInput defaultEsc false) [([b], none)]).err = none ∧
    Key.Type (ReadKey (mkInput defaultEsc false) [([b], none)]).key = b ∧
    Key.Mod (ReadKey (mkInput defaultEsc false) [([b], none)]).key
      = ModNone ∧
    (ReadKey (mkInput defaultEsc false) [([b], none)]).inp.sz = 1 := by
  rcases hb with hb | hb
  · interval_cases b <;> decide
  · subst hb; decide

theorem c2_control_byte_witness :
    (ReadKey (mkInput defaultEsc false) [([13], none)]).err = none ∧
    Key.Type (ReadKey (mkInput defaultEsc false) [([13], none)]).key = 13 :=
  ⟨(c2_control_byte 13 (Or.inl (by decide))).1,
   (c2_control_byte 13 (Or.inl (by decide))).2.1⟩

/-- C7: with mouse decoding enabled, `ESC [ < 35 ; 1 ; 1 M` decodes to a
KeyMouse key whose mouse event has button id 0 (motion only), pressed,
at (1,1); `ESC [ < 0 ; 21 ; 13 m` decodes to a KeyMouse key with button
id 1, released, at (21,13). -/
theorem c7_sgr_mouse_decode :
    (Key.Type (ReadKey (mkInput defaultEsc true)
        [([27, 91, 60, 51, 53, 59, 49, 59, 49, 77], none)]).key = KeyMouse ∧
      ((ReadKey (mkInput defaultEsc true)
        [([27, 91, 60, 51, 53, 59, 49, 59, 49, 77], none)]).inp.Mouse).ButtonID
        = 0 ∧
      ((ReadKey (mkInput defaultEsc true)
        [([27, 91, 60, 51, 53, 59, 49, 59, 49, 77], none)]).inp.Mouse).ButtonPressed
        = true ∧
      ((ReadKey (mkInput defaultEsc true)
        [([27, 91, 60, 51, 53, 59, 49, 59, 49, 77], none)]).inp.Mouse).Coords
        = (1, 1)) ∧
    (Key.Type (ReadKey (mkInput defaultEsc true)
        [([27, 91, 60, 48, 59, 50, 49, 59, 49, 51, 109], none)]).key = KeyMouse ∧
      ((ReadKey (mkInput defaultEsc true)
        [([27, 91, 60, 48, 59, 50, 49, 59, 49, 51, 109], none)]).inp.Mouse).ButtonID
        = 1 ∧
      ((ReadKey (mkInput defaultEsc true)
        [([27, 91, 60, 48, 59, 50, 49, 59, 49, 51, 109], none)]).inp.Mouse).ButtonPressed
        = false ∧
      ((ReadKey (mkInput defaultEsc true)
        [([27, 91, 60, 48, 59, 50, 49, 59, 49, 51, 109], none)]).inp.Mouse).Coords
        = (21, 13)) := by decide

/-! ## Structural lemmas about finishKey, readMore and the mouse decoder -/

theorem escLookupStep_spec (i : Input) (src : Src) :
    (finishKey.escLookupStep i src).err = none ∧
    (finishKey.escLookupStep i src).inp.lastm = i.lastm ∧
    (finishKey.escLookupStep i src).inp.sz = i.buf.length ∧
    ((finishKey.escLookupStep i src).key = keyFromTypeMod KeyESCSeq ModNone ∨
      List.lookup i.buf i.esc = some (finishKey.escLookupStep i src).key) := by
  unfold finishKey.escLookupStep
  cases h : List.lookup i.buf i.esc with
  | none => exact ⟨rfl, rfl, rfl, Or.inl rfl⟩
  | some k => exact ⟨rfl, rfl, rfl, Or.inr rfl⟩

theorem decodeMouseEvent_lastm (bufAll : List Nat) (m : MouseEvent) :
    Key.Type (decodeMouseEvent bufAll m).1 = KeyMouse ∨
    (decodeMouseEvent bufAll m).2 = m := by
  have hT : ∀ mo : Nat, Key.Type (keyFromTypeMod KeyMouse mo) = KeyMouse :=
    fun mo => keyType_keyFromTypeMod KeyMouse mo (by decide)
  simp only [decodeMouseEvent]
  split_ifs
  · right; rfl
  · repeat' split
    all_goals
      first
        | (right; rfl)
        | (left; exact hT _)
  · right; rfl

theorem finishKey_err_none (i : Input) (src : Src) (rn : Int) :
    (finishKey i src rn).err = none := by
  simp only [finishKey]
  split_ifs
  any_goals rfl
  all_goals exact (escLookupStep_spec _ _).1

theorem finishKey_lastm (i : Input) (src : Src) (rn : Int)
    (h : Key.Type (finishKey i src rn).key ≠ KeyMouse) :
    (finishKey i src rn).inp.lastm = i.lastm := by
  simp only [finishKey] at h ⊢
  split_ifs at h ⊢ with h1 h2 h3 h4
  · rfl
  · exact absurd h4 h
  · rcases decodeMouseEvent_lastm i.buf i.lastm with hk | hm
    · exact absurd hk h4
    · exact (escLookupStep_spec _ _).2.1.trans hm
  · exact (escLookupStep_spec _ _).2.1
  · rfl

theorem readMore_lastm (i1 : Input) (src : Src)
    (h : Key.Type (readMore i1 src).key ≠ KeyMouse) :
    (readMore i1 src).inp.lastm = i1.lastm := by
  simp only [readMore] at h ⊢
  split_ifs at h ⊢
  · rfl
  · rfl
  · rfl
  · rfl
  · exact finishKey_lastm _ _ _ h

theorem ReadKey_lastm (i : Input) (src : Src)
    (h : Key.Type (ReadKey i src).key ≠ KeyMouse) :
    (ReadKey i src).inp.lastm = i.lastm := by
  simp only [ReadKey] at h ⊢
  split_ifs at h ⊢
  · exact finishKey_lastm _ _ _ h
  · exact readMore_lastm _ _ h
  · exact finishKey_lastm _ _ _ h
  · exact readMore_lastm _ _ h

theorem ReadKey_err_cases (i : Input) (src : Src) :
    (ReadKey i src).err = none ∨ (ReadKey i src).key = 0 := by
  simp only [ReadKey, readMore]
  split_ifs
  all_goals
    first
      | (left; exact finishKey_err_none _ _ _)
      | (right; rfl)

/-- C10: `ReadKey` mutates the stored mouse-event state only on a call
returning a key of type `KeyMouse`: any call whose key is not
mouse-typed (rune, control, escape-sequence, focus keys — or any error
return, whose key `0` is rune-typed) leaves `Input.Mouse` unchanged. -/
theorem c10_mouse_frame (i : Input) (src : Src)
    (h : (ReadKey i src).err ≠ none ∨
      Key.Type (ReadKey i src).key ≠ KeyMouse) :
    ((ReadKey i src).inp).Mouse = i.Mouse := by
  have hk : Key.Type (ReadKey i src).key ≠ KeyMouse := by
    rcases h with h | h
    · rcases ReadKey_err_cases i src with he | hkey
      · exact absurd he h
      · rw [hkey, keyType_of_lt 0 (by norm_num)]
        decide
    · exact h
  exact ReadKey_lastm i src hk

theorem c10_mouse_frame_witness :
    ((ReadKey (mkInput defaultEsc false) [([97], none)]).inp).Mouse
      = (mkInput defaultEsc false).Mouse :=
  c10_mouse_frame (mkInput defaultEsc false) [([97], none)]
    (Or.inr (by decide))

/-- C4: when the byte source is exhausted (a read yielding zero bytes
with no error, end-of-stream, or a timeout-classified error) while zero
bytes are buffered, ReadKey returns the zero Key and `ErrTimeout`, and
`ErrTimeout` implements the `Timeout() bool` interface returning true. -/
theorem c4_exhausted_timeout (i : Input) (src : Src)
    (hbuf : i.buf.drop i.sz = [])
    (hchunk : (srcRead src).1.1 = [])
    (hclass : readErrTimeoutClass (srcRead src).1.2 = true) :
    (ReadKey i src).key = 0 ∧ (ReadKey i src).err = some ErrTimeout ∧
    GoError.timeoutMethod ErrTimeout = some true := by
  have hgen : ∀ j : Input, j.buf = [] →
      readMore j src
        = { key := 0, err := some ErrTimeout, inp := j,
            src := (srcRead src).2 } := by
    intro j hj
    simp only [readMore, hj]
    rw [if_pos (Or.inr (by rw [hchunk]; rfl))]
    rw [if_neg (by simp), if_pos ⟨by rw [hchunk]; rfl, hclass⟩]
  rcases Nat.eq_zero_or_pos i.sz with h0 | hpos
  · have hbe : i.buf = [] := by simpa [h0] using hbuf
    have hstep : ReadKey i src = readMore i src := by
      simp [ReadKey, h0, hbe, utf8DecodeRune]
    rw [hstep, hgen i hbe]
    exact ⟨rfl, rfl, rfl⟩
  · have hstep : ReadKey i src
        = readMore { i with buf := i.buf.drop i.sz, sz := 0 } src := by
      simp only [ReadKey]
      rw [if_pos hpos, if_neg (by simp [hbuf])]
    rw [hstep, hgen _ (by simp [hbuf])]
    exact ⟨rfl, rfl, rfl⟩

theorem c4_exhausted_timeout_witness :
    (ReadKey (mkInput defaultEsc false) []).key = 0 ∧
    (ReadKey (mkInput defaultEsc false) []).err = some ErrTimeout ∧
    GoError.timeoutMethod ErrTimeout = some true :=
  c4_exhausted_timeout (mkInput defaultEsc false) [] (by decide) (by decide)
    (by decide)

/-- C5: whenever ReadKey reports the "invalid rune" failure it marks
exactly one byte as consumed (`sz = 1`) — never more — provided the byte
source itself never hands back the decoder-internal invalid-rune error
value (impossible in Go, where that error is freshly allocated); and on
the concrete stream `0xFF` then `'a'`, the first call discards exactly
the invalid byte and fails, and the next call decodes `'a'` normally. -/
theorem c5_invalid_byte_one_discard :
    (∀ (i : Input) (src : Src),
      (∀ p ∈ src, p.2 ≠ some GoError.invalidRune) →
      (ReadKey i src).err = some GoError.invalidRune →
      (ReadKey i src).inp.sz = 1) ∧
    ((ReadKey (mkInput defaultEsc false) [([255], none), ([97], none)]).err
        = some GoError.invalidRune ∧
      (ReadKey (mkInput defaultEsc false)
        [([255], none), ([97], none)]).inp.sz = 1 ∧
      (ReadKey (ReadKey (mkInput defaultEsc false)
          [([255], none), ([97], none)]).inp
        (ReadKey (mkInput defaultEsc false)
          [([255], none), ([97], none)]).src).err = none ∧
      (ReadKey (ReadKey (mkInput defaultEsc false)
          [([255], none), ([97], none)]).inp
        (ReadKey (mkInput defaultEsc false)
          [([255], none), ([97], none)]).src).key = 97 ∧
      Key.Rune (ReadKey (ReadKey (mkInput defaultEsc false)
          [([255], none), ([97], none)]).inp
        (ReadKey (mkInput defaultEsc false)
          [([255], none), ([97], none)]).src).key = 97) := by
  constructor
  · intro i src hwf herr
    have hsrc : (srcRead src).1.2 ≠ some GoError.invalidRune := by
      cases src with
      | nil => simp [srcRead]
      | cons c rest => exact hwf c (List.mem_cons_self c rest)
    simp only [ReadKey, readMore] at herr ⊢
    split_ifs at herr ⊢
    all_goals
      first
        | rfl
        | (rw [finishKey_err_none] at herr; exact Option.noConfusion herr)
        | (exact absurd herr hsrc)
        | (exact absurd herr (by simp [ErrTimeout]))
  · decide

theorem c5_invalid_byte_one_discard_witness :
    (ReadKey (mkInput defaultEsc false) [([255], none)]).inp.sz = 1 :=
  c5_invalid_byte_one_discard.1 (mkInput defaultEsc false) [([255], none)]
    (by decide) (by decide)

/-- `finishKey` on an escape-byte rune with escape translation disabled
(no mouse, no table entry) returns the generic `KeyESCSeq` key and
consumes the whole buffer. -/
theorem finishKey_esc_generic (i : Input) (src : Src)
    (hlen : i.buf.length ≠ 1) (hmouse : i.mouse = false)
    (hlook : List.lookup i.buf i.esc = none) :
    finishKey i src (Int.ofNat 27)
      = { key := keyFromTypeMod KeyESCSeq ModNone, err := none,
          inp := { i with sz := i.buf.length }, src := src } := by
  simp only [finishKey]
  rw [if_neg (fun hc => hlen hc.1), if_pos (by decide)]
  rw [if_neg (fun hc => by
    have h5 : i.mouse = true := hc.1
    rw [hmouse] at h5
    exact Bool.noConfusion h5)]
  simp only [finishKey.escLookupStep]
  rw [hlook]

/-- `finishKey` on an escape-byte rune when the mouse sub-decoder fails:
the result is error-free and is either the generic escape-sequence key
or an escape-table match. -/
theorem finishKey_esc_soft (i : Input) (src : Src)
    (hlen : i.buf.length ≠ 1)
    (hfail : Key.Type (decodeMouseEvent i.buf i.lastm).1 ≠ KeyMouse) :
    (finishKey i src (Int.ofNat 27)).err = none ∧
    ((finishKey i src (Int.ofNat 27)).key
        = keyFromTypeMod KeyESCSeq ModNone ∨
      List.lookup i.buf i.esc
        = some (finishKey i src (Int.ofNat 27)).key) := by
  simp only [finishKey]
  rw [if_neg (fun hc => hlen hc.1), if_pos (by decide)]
  by_cases hc3 : i.mouse = true ∧ List.take 3 i.buf = sgrMouseEventPrefix
  · rw [if_pos hc3, if_neg hfail]
    exact ⟨(escLookupStep_spec _ _).1, (escLookupStep_spec _ _).2.2.2⟩
  · rw [if_neg hc3]
    exact ⟨(escLookupStep_spec _ _).1, (escLookupStep_spec _ _).2.2.2⟩

/-- C6: with a non-nil empty capability table (`WithESCSeq` of an empty
map), escape translation is fully disabled: every input beginning with
the escape byte and longer than one byte decodes to the generic
`KeyESCSeq` key with no modifier, and `Bytes` then returns exactly the
consumed bytes. -/
theorem c6_empty_esc_table (i0 : Input) (rest : List Nat) (hr : rest ≠ [])
    (hbuf : i0.buf = []) (hsz : i0.sz = 0)
    (hesc : i0.esc = escFromTerminfo (some [])) (hm : i0.mouse = false) :
    (ReadKey i0 [(27 :: rest, none)]).err = none ∧
    (ReadKey i0 [(27 :: rest, none)]).key
      = keyFromTypeMod KeyESCSeq ModNone ∧
    Key.Type (ReadKey i0 [(27 :: rest, none)]).key = KeyESCSeq ∧
    Key.Mod (ReadKey i0 [(27 :: rest, none)]).key = ModNone ∧
    (ReadKey i0 [(27 :: rest, none)]).inp.Bytes = 27 :: rest := by
  have hlen : (27 :: rest).length ≠ 1 := by
    cases rest with
    | nil => exact absurd rfl hr
    | cons a t => simp
  have hdec : utf8DecodeRune (27 :: rest) = (Int.ofNat 27, 1) := by
    simp [utf8DecodeRune]
  have hstep : ReadKey i0 [(27 :: rest, none)]
      = readMore i0 [(27 :: rest, none)] := by
    simp [ReadKey, hsz, hbuf, utf8DecodeRune]
  have hstep2 : readMore i0 [(27 :: rest, none)]
      = finishKey { i0 with buf := 27 :: rest, sz := 1 } []
          (Int.ofNat 27) := by
    simp only [readMore, srcRead, hbuf]
    rw [if_neg (by simp), if_neg (by rw [List.nil_append, hdec]; decide)]
    rw [List.nil_append, hdec]
  have h4 : List.lookup (27 :: rest) i0.esc = none := by
    rw [hesc]
    rfl
  rw [hstep, hstep2,
    finishKey_esc_generic { i0 with buf := 27 :: rest, sz := 1 } [] hlen hm
      h4]
  refine ⟨rfl, rfl, keyType_keyFromTypeMod _ _ (by decide),
    keyMod_keyFromTypeMod _ _ (by decide), ?_⟩
  simp [Input.Bytes]

theorem c6_empty_esc_table_witness :
    (ReadKey (mkInput (escFromTerminfo (some [])) false)
      [([27, 91, 65], none)]).err = none ∧
    (ReadKey (mkInput (escFromTerminfo (some [])) false)
      [([27, 91, 65], none)]).key = keyFromTypeMod KeyESCSeq ModNone :=
  ⟨(c6_empty_esc_table (mkInput (escFromTerminfo (some [])) false) [91, 65]
      (by decide) rfl rfl rfl rfl).1,
   (c6_empty_esc_table (mkInput (escFromTerminfo (some [])) false) [91, 65]
      (by decide) rfl rfl rfl rfl).2.1⟩

/-- C8: any buffered input that begins with the SGR mouse prefix
`ESC [ <` but fails mouse decoding still yields a key with a nil error
(the generic escape-sequence key or an escape-table match) — a
malformed mouse report never propagates as an error. -/
theorem c8_malformed_mouse_soft (i0 : Input) (bs : List Nat)
    (hbuf : i0.buf = []) (hsz : i0.sz = 0) (_hm : i0.mouse = true)
    (hpre : bs.take 3 = sgrMouseEventPrefix)
    (hfail : Key.Type (decodeMouseEvent bs i0.lastm).1 ≠ KeyMouse) :
    (ReadKey i0 [(bs, none)]).err = none ∧
    ((ReadKey i0 [(bs, none)]).key = keyFromTypeMod KeyESCSeq ModNone ∨
      List.lookup bs i0.esc = some (ReadKey i0 [(bs, none)]).key) := by
  obtain ⟨tl, hbs⟩ : ∃ tl, bs = 27 :: 91 :: 60 :: tl := by
    cases bs with
    | nil => simp [sgrMouseEventPrefix] at hpre
    | cons a t =>
      cases t with
      | nil => simp [sgrMouseEventPrefix] at hpre
      | cons a2 t2 =>
        cases t2 with
        | nil => simp [sgrMouseEventPrefix] at hpre
        | cons a3 t3 =>
          simp [sgrMouseEventPrefix] at hpre
          exact ⟨t3, by rw [hpre.1, hpre.2.1, hpre.2.2]⟩
  subst hbs
  have hdec : utf8DecodeRune (27 :: 91 :: 60 :: tl) = (Int.ofNat 27, 1) := by
    simp [utf8DecodeRune]
  have hstep : ReadKey i0 [(27 :: 91 :: 60 :: tl, none)]
      = readMore i0 [(27 :: 91 :: 60 :: tl, none)] := by
    simp [ReadKey, hsz, hbuf, utf8DecodeRune]
  have hstep2 : readMore i0 [(27 :: 91 :: 60 :: tl, none)]
      = finishKey { i0 with buf := 27 :: 91 :: 60 :: tl, sz := 1 } []
          (Int.ofNat 27) := by
    simp only [readMore, srcRead, hbuf]
    rw [if_neg (by simp), if_neg (by rw [List.nil_append, hdec]; decide)]
    rw [List.nil_append, hdec]
  rw [hstep, hstep2]
  exact finishKey_esc_soft { i0 with buf := 27 :: 91 :: 60 :: tl, sz := 1 }
    [] (by simp) hfail

theorem c8_malformed_mouse_soft_witness :
    (ReadKey (mkInput defaultEsc true)
      [([27, 91, 60, 51, 53, 59, 49, 77], none)]).err = none ∧
    ((ReadKey (mkInput defaultEsc true)
        [([27, 91, 60, 51, 53, 59, 49, 77], none)]).key
        = keyFromTypeMod KeyESCSeq ModNone ∨
      List.lookup [27, 91, 60, 51, 53, 59, 49, 77]
          (mkInput defaultEsc true).esc
        = some (ReadKey (mkInput defaultEsc true)
            [([27, 91, 60, 51, 53, 59, 49, 77], none)]).key) :=
  c8_malformed_mouse_soft (mkInput defaultEsc true)
    [27, 91, 60, 51, 53, 59, 49, 77] rfl rfl rfl (by decide) (by decide)

/-! ## UTF-8 roundtrip and incomplete-prefix lemmas -/

theorem utf8EncodeRune_eq2 (v : Nat) (h1 : 128 ≤ v) (h2 : v < 2048) :
    utf8EncodeRune v = [192 + v / 64, 128 + v % 64] := by
  unfold utf8EncodeRune
  rw [if_neg (by omega), if_pos h2]

theorem utf8EncodeRune_eq3 (v : Nat) (h1 : 2048 ≤ v) (h2 : v < 65536) :
    utf8EncodeRune v
      = [224 + v / 4096, 128 + (v / 64) % 64, 128 + v % 64] := by
  unfold utf8EncodeRune
  rw [if_neg (by omega), if_neg (by omega), if_pos h2]

theorem utf8EncodeRune_eq4 (v : Nat) (h1 : 65536 ≤ v) :
    utf8EncodeRune v
      = [240 + v / 262144, 128 + (v / 4096) % 64, 128 + (v / 64) % 64,
         128 + v % 64] := by
  unfold utf8EncodeRune
  rw [if_neg (by omega), if_neg (by omega), if_neg (by omega)]

/-- Decoding the standard UTF-8 encoding of a valid non-ASCII scalar
value (with any trailing bytes) recovers the value and its encoded
length. -/
theorem utf8DecodeRune_encode (v : Nat) (r : List Nat) (h1 : 128 ≤ v)
    (h2 : v < 1114112) (h3 : ¬(55296 ≤ v ∧ v < 57344)) :
    utf8DecodeRune (utf8EncodeRune v ++ r)
      = (Int.ofNat v, (utf8EncodeRune v).length) := by
  by_cases hv2 : v < 2048
  · rw [utf8EncodeRune_eq2 v h1 hv2]
    simp only [List.cons_append, List.nil_append, utf8DecodeRune,
      List.length_cons, List.length_nil]
    rw [if_neg (by omega), if_neg (by omega), if_pos (by omega),
      if_pos (by omega)]
    exact Prod.ext (congrArg Int.ofNat (by omega)) rfl
  · by_cases hv3 : v < 65536
    · rw [utf8EncodeRune_eq3 v (by omega) hv3]
      simp only [List.cons_append, List.nil_append, utf8DecodeRune,
        List.length_cons, List.length_nil]
      rw [if_neg (by omega), if_neg (by omega), if_neg (by omega),
        if_pos (by omega)]
      rw [if_pos (by constructor <;> split_ifs <;> omega),
        if_pos (by omega)]
      exact Prod.ext (congrArg Int.ofNat (by omega)) rfl
    · rw [utf8EncodeRune_eq4 v (by omega)]
      simp only [List.cons_append, List.nil_append, utf8DecodeRune,
        List.length_cons, List.length_nil]
      rw [if_neg (by omega), if_neg (by omega), if_neg (by omega),
        if_neg (by omega), if_pos (by omega)]
      rw [if_pos (by constructor <;> split_ifs <;> omega),
        if_pos (by omega), if_pos (by omega)]
      exact Prod.ext (congrArg Int.ofNat (by omega)) rfl

/-- A sequence led by a multi-byte leader but shorter than the size the
leader demands decodes to `(RuneError, 1)` (Go's `n < sz` check). -/
theorem utf8DecodeRune_short (b0 : Nat) (t : List Nat)
    (hb1 : 194 ≤ b0) (hb2 : b0 < 245) (ht2 : t.length ≤ 2)
    (hc2 : b0 < 224 → t = []) (hc3 : b0 < 240 → t.length ≤ 1) :
    utf8DecodeRune (b0 :: t) = (RuneError, 1) := by
  simp only [utf8DecodeRune]
  rw [if_neg (by omega), if_neg (by omega)]
  by_cases h224 : b0 < 224
  · rw [if_pos h224, hc2 h224]
  · rw [if_neg h224]
    by_cases h240 : b0 < 240
    · rw [if_pos h240]
      have hlen := hc3 h240
      rcases t with _ | ⟨b1, t2⟩
      · rfl
      · rcases t2 with _ | ⟨b2, t3⟩
        · rfl
        · simp at hlen
    · rw [if_neg h240, if_pos (by omega)]
      rcases t with _ | ⟨b1, t2⟩
      · rfl
      · rcases t2 with _ | ⟨b2, t3⟩
        · rfl
        · rcases t3 with _ | ⟨b3, t4⟩
          · rfl
          · simp at ht2

/-- A proper nonempty prefix of the encoding of a valid non-ASCII scalar
value decodes to `(RuneError, 1)`: an incomplete sequence, reported with
size 1. -/
theorem utf8DecodeRune_incomplete (v : Nat) (p s : List Nat) (h1 : 128 ≤ v)
    (h2 : v < 1114112) (he : utf8EncodeRune v = p ++ s) (hp : p ≠ [])
    (hs : s ≠ []) : utf8DecodeRune p = (RuneError, 1) := by
  by_cases hv2 : v < 2048
  · rw [utf8EncodeRune_eq2 v h1 hv2] at he
    rcases p with _ | ⟨a, p2⟩
    · exact absurd rfl hp
    rcases p2 with _ | ⟨b, p3⟩
    · simp only [List.cons_append, List.nil_append, List.cons.injEq] at he
      rw [← he.1]
      exact utf8DecodeRune_short _ [] (by omega) (by omega) (by simp)
        (fun _ => rfl) (fun _ => by simp)
    · simp only [List.cons_append, List.cons.injEq] at he
      have hnil := List.append_eq_nil.mp he.2.2.symm
      exact absurd hnil.2 hs
  · by_cases hv3 : v < 65536
    · rw [utf8EncodeRune_eq3 v (by omega) hv3] at he
      rcases p with _ | ⟨a, p2⟩
      · exact absurd rfl hp
      rcases p2 with _ | ⟨b, p3⟩
      · simp only [List.cons_append, List.nil_append, List.cons.injEq]
          at he
        rw [← he.1]
        exact utf8DecodeRune_short _ [] (by omega) (by omega) (by simp)
          (fun hlt => absurd hlt (by omega)) (fun _ => by simp)
      rcases p3 with _ | ⟨c, p4⟩
      · simp only [List.cons_append, List.nil_append, List.cons.injEq]
          at he
        rw [← he.1, ← he.2.1]
        exact utf8DecodeRune_short _ [_] (by omega) (by omega) (by simp)
          (fun hlt => absurd hlt (by omega)) (fun _ => by simp)
      · simp only [List.cons_append, List.cons.injEq] at he
        have hnil := List.append_eq_nil.mp he.2.2.2.symm
        exact absurd hnil.2 hs
    · rw [utf8EncodeRune_eq4 v (by omega)] at he
      have hlead : v / 262144 ≤ 4 := by omega
      rcases p with _ | ⟨a, p2⟩
      · exact absurd rfl hp
      rcases p2 with _ | ⟨b, p3⟩
      · simp only [List.cons_append, List.nil_append, List.cons.injEq]
          at he
        rw [← he.1]
        exact utf8DecodeRune_short _ [] (by omega) (by omega) (by simp)
          (fun hlt => absurd hlt (by omega))
          (fun hlt => absurd hlt (by omega))
      rcases p3 with _ | ⟨c, p4⟩
      · simp only [List.cons_append, List.nil_append, List.cons.injEq]
          at he
        rw [← he.1, ← he.2.1]
        exact utf8DecodeRune_short _ [_] (by omega) (by omega) (by simp)
          (fun hlt => absurd hlt (by omega))
          (fun hlt => absurd hlt (by omega))
      rcases p4 with _ | ⟨d, p5⟩
      · simp only [List.cons_append, List.nil_append, List.cons.injEq]
          at he
        rw [← he.1, ← he.2.1, ← he.2.2.1]
        exact utf8DecodeRune_short _ [_, _] (by omega) (by omega)
          (by simp) (fun hlt => absurd hlt (by omega))
          (fun hlt => absurd hlt (by omega))
      · simp only [List.cons_append, List.cons.injEq] at he
        have hnil := List.append_eq_nil.mp he.2.2.2.2.symm
        exact absurd hnil.2 hs

theorem utf8EncodeRune_len2 (v : Nat) (h1 : 128 ≤ v) (h2 : v < 1114112) :
    2 ≤ (utf8EncodeRune v).length := by
  by_cases hv2 : v < 2048
  · rw [utf8EncodeRune_eq2 v h1 hv2]; simp
  · by_cases hv3 : v < 65536
    · rw [utf8EncodeRune_eq3 v (by omega) hv3]; simp
    · rw [utf8EncodeRune_eq4 v (by omega)]; simp

theorem keyTypeOfRune_ofNat (v : Nat) :
    keyTypeOfRune (Int.ofNat v) = v % 256 := by
  unfold keyTypeOfRune
  rw [Int.ofNat_eq_natCast]
  omega

theorem keyOfRune_ofNat (v : Nat) (hv : v < 4294967296) :
    keyOfRune (Int.ofNat v) = v := by
  unfold keyOfRune
  rw [Int.ofNat_eq_natCast]
  omega

theorem keyRune_small (v : Nat) (hv : v < 2147483648) :
    Key.Rune v = Int.ofNat v := by
  unfold Key.Rune runeOfKey
  rw [if_pos hv, if_neg (by omega)]
  rfl

/-- Core trace: starting from a state whose buffer does not yet decode
to a rune, where the buffered bytes plus the single pending read chunk
form exactly the UTF-8 encoding of a valid non-ASCII scalar `v` (with
`v mod 256 ≠ 27`), ReadKey performs the read and returns the rune key
`v`, consuming the whole encoding. -/
theorem readKey_assembles_rune (i0 : Input) (v : Nat) (s : List Nat)
    (h1 : 128 ≤ v) (h2 : v < 1114112) (h3 : ¬(55296 ≤ v ∧ v < 57344))
    (h27 : v % 256 ≠ 27)
    (hsplit : i0.buf ++ s = utf8EncodeRune v)
    (hsz : i0.sz = 0) (hs : s ≠ [])
    (hnodecode : ¬(0 < i0.buf.length ∧
      ¬((utf8DecodeRune i0.buf).1 = RuneError ∧
        (utf8DecodeRune i0.buf).2 < 2))) :
    (ReadKey i0 [(s, none)]).err = none ∧
    (ReadKey i0 [(s, none)]).key = v ∧
    Key.Type (ReadKey i0 [(s, none)]).key = KeyRune ∧
    Key.Rune (ReadKey i0 [(s, none)]).key = Int.ofNat v ∧
    (ReadKey i0 [(s, none)]).inp.sz = (utf8EncodeRune v).length := by
  have hlen2 : 2 ≤ (utf8EncodeRune v).length := utf8EncodeRune_len2 v h1 h2
  have henc : utf8DecodeRune (utf8EncodeRune v)
      = (Int.ofNat v, (utf8EncodeRune v).length) := by
    have h := utf8DecodeRune_encode v [] h1 h2 h3
    rwa [List.append_nil] at h
  have hstep : ReadKey i0 [(s, none)] = readMore i0 [(s, none)] := by
    simp only [ReadKey]
    rw [hsz, if_neg (Nat.lt_irrefl 0), if_neg hnodecode]
  have hstep2 : readMore i0 [(s, none)]
      = finishKey
          { i0 with buf := utf8EncodeRune v,
                    sz := (utf8EncodeRune v).length }
          [] (Int.ofNat v) := by
    simp only [readMore, srcRead]
    rw [if_neg (by simp [hs]), hsplit, henc]
    rw [if_neg (fun hc => absurd hc.2 (by omega))]
  have hfin : finishKey
        { i0 with buf := utf8EncodeRune v,
                  sz := (utf8EncodeRune v).length }
        [] (Int.ofNat v)
      = { key := keyOfRune (Int.ofNat v), err := none,
          inp := { i0 with buf := utf8EncodeRune v,
                           sz := (utf8EncodeRune v).length },
          src := [] } := by
    simp only [finishKey]
    rw [if_neg (fun hc => by
      have hl : (utf8EncodeRune v).length = 1 := hc.1
      omega)]
    rw [if_neg (fun hc => by
      rw [keyTypeOfRune_ofNat] at hc
      exact h27 hc)]
  have hko : keyOfRune (Int.ofNat v) = v := keyOfRune_ofNat v (by omega)
  rw [hstep, hstep2, hfin]
  refine ⟨rfl, hko, ?_, ?_, rfl⟩
  · show Key.Type (keyOfRune (Int.ofNat v)) = KeyRune
    rw [hko]
    exact keyType_of_lt v (by omega)
  · show Key.Rune (keyOfRune (Int.ofNat v)) = Int.ofNat v
    rw [hko]
    exact keyRune_small v (by omega)

/-- C1 counterexample: the 2-byte encoding of é (U+00E9, `[0xC3, 0xA9]`)
delivered as a proper prefix on one read and the remainder on the next,
starting from an empty buffer: the first ReadKey call performs one read,
the post-read decode fails, and the call returns the invalid-rune
failure (discarding the prefix byte) instead of decoding the rune. -/
theorem c1_split_rune_counterexample :
    utf8EncodeRune 233 = [195] ++ [169] ∧
    (ReadKey (mkInput defaultEsc false)
      [([195], none), ([169], none)]).err = some GoError.invalidRune ∧
    (ReadKey (mkInput defaultEsc false)
      [([195], none), ([169], none)]).key = 0 := by decide

/-- C1 (amended): when a proper prefix of the multi-byte encoding is
already buffered at the start of the ReadKey call (as happens when it
arrived in the same underlying read as the preceding key) and the next
read delivers the remaining bytes, ReadKey decodes the correct single
rune key — the incomplete buffered sequence triggers one more read, not
the invalid-sequence failure — provided the scalar value is not
congruent to the escape byte (27) modulo 256. -/
theorem c1_split_rune_amended (i0 : Input) (v : Nat) (p s : List Nat)
    (h1 : 128 ≤ v) (h2 : v < 1114112) (h3 : ¬(55296 ≤ v ∧ v < 57344))
    (h27 : v % 256 ≠ 27)
    (he : utf8EncodeRune v = p ++ s) (hp : p ≠ []) (hs : s ≠ [])
    (hbuf : i0.buf = p) (hsz : i0.sz = 0) :
    (ReadKey i0 [(s, none)]).err = none ∧
    (ReadKey i0 [(s, none)]).key = v ∧
    Key.Type (ReadKey i0 [(s, none)]).key = KeyRune ∧
    Key.Rune (ReadKey i0 [(s, none)]).key = Int.ofNat v ∧
    (ReadKey i0 [(s, none)]).inp.sz = (utf8EncodeRune v).length := by
  have hdp : utf8DecodeRune p = (RuneError, 1) :=
    utf8DecodeRune_incomplete v p s h1 h2 he hp hs
  refine readKey_assembles_rune i0 v s h1 h2 h3 h27 ?_ hsz hs ?_
  · rw [hbuf, ← he]
  · rw [hbuf, hdp]
    simp

theorem c1_split_rune_amended_witness :
    (ReadKey { buf := [195], sz := 0, lastm := ⟨0, false, 0, 0⟩, esc := defaultEsc, mouse := false } [([169], none)]).err = none ∧
    (ReadKey { buf := [195], sz := 0, lastm := ⟨0, false, 0, 0⟩, esc := defaultEsc, mouse := false } [([169], none)]).key = 233 :=
  ⟨(c1_split_rune_amended
      { buf := [195], sz := 0, lastm := ⟨0, false, 0, 0⟩, esc := defaultEsc, mouse := false }
      233 [195] [169] (by decide) (by decide) (by decide) (by decide)
      (by decide) (by decide) (by decide) rfl rfl).1,
   (c1_split_rune_amended
      { buf := [195], sz := 0, lastm := ⟨0, false, 0, 0⟩, esc := defaultEsc, mouse := false }
      233 [195] [169] (by decide) (by decide) (by decide) (by decide)
      (by decide) (by decide) (by decide) rfl rfl).2.1⟩

/-- C3 counterexample: U+011B (ě, encoded `[0xC4, 0x9B]`, value 283,
not a control byte and not beginning with the escape byte) is routed to
the escape-translation path because `KeyType(rn)` truncates the rune to
a byte (283 mod 256 = 27 = ESC): ReadKey returns the generic
escape-sequence key, not a rune key. -/
theorem c3_rune_key_counterexample :
    utf8EncodeRune 283 = [196, 155] ∧
    Key.Type (ReadKey (mkInput defaultEsc false)
      [([196, 155], none)]).key = KeyESCSeq ∧
    Key.Type (ReadKey (mkInput defaultEsc false)
      [([196, 155], none)]).key ≠ KeyRune := by decide

/-- C3 (amended): every printable ASCII byte, and every valid multi-byte
UTF-8 encoding of a Unicode scalar value that is not congruent to the
escape byte (27) modulo 256, decodes to a rune key equal to that scalar
value, consuming exactly its encoded byte length. -/
theorem c3_rune_key_amended :
    (∀ b : Nat, 32 ≤ b → b ≤ 126 →
      (ReadKey (mkInput defaultEsc false) [([b], none)]).err = none ∧
      Key.Type (ReadKey (mkInput defaultEsc false) [([b], none)]).key
        = KeyRune ∧
      Key.Rune (ReadKey (mkInput defaultEsc false) [([b], none)]).key
        = Int.ofNat b ∧
      (ReadKey (mkInput defaultEsc false) [([b], none)]).inp.sz = 1) ∧
    (∀ v : Nat, 128 ≤ v → v < 1114112 → ¬(55296 ≤ v ∧ v < 57344) →
      v % 256 ≠ 27 →
      (ReadKey (mkInput defaultEsc false)
        [(utf8EncodeRune v, none)]).err = none ∧
      (ReadKey (mkInput defaultEsc false)
        [(utf8EncodeRune v, none)]).key = v ∧
      Key.Type (ReadKey (mkInput defaultEsc false)
        [(utf8EncodeRune v, none)]).key = KeyRune ∧
      Key.Rune (ReadKey (mkInput defaultEsc false)
        [(utf8EncodeRune v, none)]).key = Int.ofNat v ∧
      (ReadKey (mkInput defaultEsc false)
        [(utf8EncodeRune v, none)]).inp.sz
        = (utf8EncodeRune v).length) := by
  constructor
  · intro b hb1 hb2
    interval_cases b <;> decide
  · intro v h1 h2 h3 h27
    refine readKey_assembles_rune (mkInput defaultEsc false) v
      (utf8EncodeRune v) h1 h2 h3 h27 rfl rfl ?_ (by simp [mkInput])
    have hl := utf8EncodeRune_len2 v h1 h2
    intro hnil
    rw [hnil] at hl
    simp at hl

theorem c3_rune_key_amended_witness :
    Key.Rune (ReadKey (mkInput defaultEsc false) [([97], none)]).key
      = Int.ofNat 97 ∧
    (ReadKey (mkInput defaultEsc false)
      [(utf8EncodeRune 233, none)]).key = 233 :=
  ⟨(c3_rune_key_amended.1 97 (by decide) (by decide)).2.2.1,
   (c3_rune_key_amended.2 233 (by decide) (by decide) (by decide)
      (by decide)).2.1⟩

end Zzterm
